import Mathlib

/-!
Verification of the OpenMetadata UI fragments: the entity version-history
timeline component (EntityVersionTimeLine.tsx) and the activity feed list
component (ActivityFeedList.tsx). The components are shallowly embedded:
React state becomes explicit state records, event handlers become state
transformers, and the JSX output relevant to the claims becomes explicit
render-description values.
-/

namespace OpenMetadataUI

/-- An exact decimal number `mant / 10 ^ exp`, the value `parseFloat`
extracts from a decimal version string such as `"1.15"`
(`⟨115, 2⟩`). The version strings in play are short decimals, which
IEEE doubles carry exactly enough to round and truncate as the exact
decimal does. -/
structure Dec where
  mant : Int
  exp : Nat
deriving DecidableEq, Repr

/-- JavaScript `Number.prototype.toFixed(1)` on a decimal value: round to
one decimal place (half away from zero coincides with half up on the
non-negative versions in play); the embedding keeps the rounded value as
a decimal with one fractional digit rather than the formatted string. -/
def toFixed1 (d : Dec) : Dec :=
  ⟨Int.fdiv (2 * (d.mant * 10) + (10 ^ d.exp : Int)) (2 * 10 ^ d.exp), 1⟩

/-- The integer (pre-decimal-point) portion of the decimal string a value
formats to: truncation toward zero. -/
def intPortion (d : Dec) : Int := Int.tdiv d.mant (10 ^ d.exp)

/-- Modelled from the spec: `isMajorVersion` lives in
`utils/EntityVersionUtils`, which is not among the provided source files.
Per the spec (§4.1) it receives the two versions rounded to one decimal
place, and returns true iff their integer (pre-decimal-point) portions
differ, with an absent/unparseable argument (JavaScript `NaN`, here
`none`) always comparing as not major. -/
def isMajorVersion : Option Dec → Option Dec → Bool
  | some prev, some curr => decide (intPortion prev ≠ intPortion curr)
  | _, _ => false

/-- One parsed revision record (the result of `JSON.parse` on an item of
`versionList.versions`). `version` and `previousVersion` hold the numeric
value `parseFloat` extracts, with `none` standing for an absent or
unparseable field (`parseFloat` yields `NaN` there);
`previousVersion` is `changeDescription.previousVersion`. -/
structure Revision where
  version : Option Dec
  previousVersion : Option Dec
  updatedBy : String
  updatedAt : Int
deriving DecidableEq, Repr

/-- The major-version test `getVersionList` applies to a revision:
`isMajorVersion(parseFloat(currV?.changeDescription?.previousVersion).toFixed(1),
parseFloat(currV?.version).toFixed(1))`. -/
def revIsMajor (r : Revision) : Bool :=
  isMajorVersion (r.previousVersion.map toFixed1) (r.version.map toFixed1)

/-- The filtering core of `getVersionList` in EntityVersionTimeLine.tsx:
the `switch (versionType)` keeping major revisions for `'major'`, non-major
ones for `'minor'`, and the whole list for `'all'` and any other value
(the `default` arm). `versionType` is a plain string in the embedding
because the component casts the dropdown value with `as VersionType`
without validating it. -/
def getVersionListFiltered (list : List Revision) (versionType : String) :
    List Revision :=
  if versionType = "major" then list.filter (fun v => revIsMajor v)
  else if versionType = "minor" then list.filter (fun v => !revIsMajor v)
  else list

/-- One rendered timeline row of `getVersionList`: the version label shows
`parseFloat(currV?.version).toFixed(1)` and the `Major` badge is rendered
exactly when `majorVersionChecks()` holds, i.e.
`isMajorVersion(...) && versionType === 'all'`. -/
structure RevisionRow where
  versionLabel : Option Dec
  showMajorBadge : Bool
deriving DecidableEq, Repr

/-- The row `getVersionList` renders for one surviving revision. -/
def rowOf (versionType : String) (r : Revision) : RevisionRow :=
  { versionLabel := r.version.map toFixed1
    showMajorBadge := revIsMajor r && decide (versionType = "all") }

/-- The full list of rendered rows: the filtered list mapped to rows. -/
def renderTimelineRows (list : List Revision) (versionType : String) :
    List RevisionRow :=
  (getVersionListFiltered list versionType).map (rowOf versionType)

/-- Claim C1: with filter `major`, `getVersionList` keeps exactly the
records satisfying `isMajorVersion(previousVersion, version)`; with
`minor` exactly the complement; with `all` the whole list unchanged; and
every surviving sequence is a sublist of the input, so the original
relative order is preserved. -/
theorem getVersionList_filter_spec (list : List Revision) :
    (∀ r, r ∈ getVersionListFiltered list "major" ↔
      r ∈ list ∧ revIsMajor r = true) ∧
    (∀ r, r ∈ getVersionListFiltered list "minor" ↔
      r ∈ list ∧ revIsMajor r = false) ∧
    getVersionListFiltered list "all" = list ∧
    (∀ versionType,
      (getVersionListFiltered list versionType).Sublist list) := by
  refine ⟨?_, ?_, ?_, ?_⟩
  · intro r
    simp [getVersionListFiltered, List.mem_filter]
  · intro r
    simp [getVersionListFiltered, List.mem_filter]
  · simp [getVersionListFiltered]
  · intro versionType
    unfold getVersionListFiltered
    split
    · exact List.filter_sublist list
    · split
      · exact List.filter_sublist list
      · exact List.Sublist.refl list

/-- A sample revision with a major jump: version 2.0, previous 1.9. -/
def revMajorSample : Revision :=
  { version := some ⟨20, 1⟩, previousVersion := some ⟨19, 1⟩
    updatedBy := "u", updatedAt := 0 }

/-- A sample revision whose `changeDescription.previousVersion` is absent
or unparseable (`parseFloat` yields `NaN`). -/
def revNoPrev : Revision :=
  { version := some ⟨10, 1⟩, previousVersion := none
    updatedBy := "u", updatedAt := 0 }

/-- Claim C3: a revision whose `changeDescription.previousVersion` is
absent or unparseable is never major: the `major` filter excludes it, the
`minor` filter keeps it, and no row rendered for it carries the `Major`
badge under any filter. -/
theorem noPrev_not_major (list : List Revision) (r : Revision)
    (h : r.previousVersion = none) :
    revIsMajor r = false ∧
    r ∉ getVersionListFiltered list "major" ∧
    (r ∈ list → r ∈ getVersionListFiltered list "minor") ∧
    (∀ versionType, (rowOf versionType r).showMajorBadge = false) := by
  have hm : revIsMajor r = false := by
    unfold revIsMajor
    rw [h]
    cases r.version <;> rfl
  refine ⟨hm, ?_, ?_, ?_⟩
  · intro hmem
    rw [getVersionListFiltered, if_pos rfl, List.mem_filter] at hmem
    rw [hm] at hmem
    exact Bool.false_ne_true hmem.2
  · intro hmem
    rw [getVersionListFiltered, if_neg (by decide), if_pos rfl,
      List.mem_filter]
    exact ⟨hmem, by rw [hm]; rfl⟩
  · intro versionType
    rw [rowOf, hm]
    rfl

/-- Witness for C3 at the concrete revision `revNoPrev` in a one-element
list. -/
theorem noPrev_not_major_witness :
    revIsMajor revNoPrev = false ∧
    revNoPrev ∉ getVersionListFiltered [revNoPrev] "major" ∧
    revNoPrev ∈ getVersionListFiltered [revNoPrev] "minor" := by
  have h := noPrev_not_major [revNoPrev] revNoPrev rfl
  exact ⟨h.1, h.2.1, h.2.2.1 (by decide)⟩

/-- Claim C4: a rendered row shows the `Major` badge iff the filter is
`all` and the generating revision qualifies as major via
`isMajorVersion`; while any other filter is active no rendered row shows
the badge. -/
theorem major_badge_iff (list : List Revision) (versionType : String) :
    (∀ r ∈ getVersionListFiltered list versionType,
      ((rowOf versionType r).showMajorBadge = true ↔
        versionType = "all" ∧ revIsMajor r = true)) ∧
    (versionType ≠ "all" →
      ∀ row ∈ renderTimelineRows list versionType,
        row.showMajorBadge = false) := by
  constructor
  · intro r _
    rw [rowOf]
    simp only [Bool.and_eq_true, decide_eq_true_eq]
    exact and_comm
  · intro hne row hrow
    rw [renderTimelineRows, List.mem_map] at hrow
    obtain ⟨r, _, hr⟩ := hrow
    rw [← hr, rowOf]
    simp [hne]

/-- Witness for C4 at concrete inputs: under `all` the sample major
revision's row carries the badge, and under `major` its row does not. -/
theorem major_badge_iff_witness :
    (rowOf "all" revMajorSample).showMajorBadge = true ∧
    (rowOf "major" revMajorSample).showMajorBadge = false := by
  constructor
  · exact ((major_badge_iff [revMajorSample] "all").1 revMajorSample
      (by decide)).2 ⟨rfl, by decide⟩
  · exact (major_badge_iff [revMajorSample] "major").2 (by decide)
      (rowOf "major" revMajorSample) (by decide)

/-- The component-local state of EntityVersionTimeLine: `listVisible`
(dropdown open) and `versionType` (the active filter; kept as a string
because the source casts the dropdown value with `as VersionType`). -/
structure TimelineState where
  listVisible : Bool
  versionType : String
deriving DecidableEq, Repr

/-- `handleVersionTypeSelection(_e, value?)` from EntityVersionTimeLine:
`if (value) setVersionType(value); setListVisible(false)`. `value` is an
optional string; the JavaScript truthiness test fails on `undefined`
(`none`) and on the empty string. -/
def handleVersionTypeSelection (value : Option String) (s : TimelineState) :
    TimelineState :=
  { versionType :=
      match value with
      | some v => if v = "" then s.versionType else v
      | none => s.versionType
    listVisible := false }

/-- Claim C8: the filter-dropdown selection callback closes the dropdown
unconditionally; `versionType` is updated exactly on a non-empty value and
left unchanged on an empty one. -/
theorem handleVersionTypeSelection_spec (value : Option String)
    (s : TimelineState) :
    (handleVersionTypeSelection value s).listVisible = false ∧
    (∀ v, value = some v → v ≠ "" →
      (handleVersionTypeSelection value s).versionType = v) ∧
    (value = none ∨ value = some "" →
      (handleVersionTypeSelection value s).versionType = s.versionType) := by
  refine ⟨rfl, ?_, ?_⟩
  · intro v hv hne
    subst hv
    simp [handleVersionTypeSelection, hne]
  · rintro (h | h) <;> subst h <;> rfl

/-- Witness for C8 at concrete inputs: choosing `"major"` closes the
dropdown and sets the filter; an absent value leaves the filter alone. -/
theorem handleVersionTypeSelection_spec_witness :
    (handleVersionTypeSelection (some "major") ⟨true, "all"⟩).listVisible
        = false ∧
    (handleVersionTypeSelection (some "major") ⟨true, "all"⟩).versionType
        = "major" ∧
    (handleVersionTypeSelection none ⟨true, "all"⟩).versionType = "all" := by
  refine ⟨(handleVersionTypeSelection_spec (some "major") ⟨true, "all"⟩).1,
    (handleVersionTypeSelection_spec (some "major") ⟨true, "all"⟩).2.1
      "major" rfl (by decide), ?_⟩
  exact (handleVersionTypeSelection_spec none ⟨true, "all"⟩).2.2 (Or.inl rfl)

/-- One reply inside a Thread (the `Post` shape from `Models`). -/
structure Post where
  «from» : String
  postTs : Int
  message : String
deriving DecidableEq, Repr

/-- One discussion thread (the `EntityThread` shape from `Models`): an
`about` entity link, the initiating message, a reply count `postsCount`
and the ordered replies `posts`. -/
structure EntityThread where
  id : String
  about : String
  message : String
  createdBy : String
  threadTs : Int
  postsCount : Nat
  posts : List Post
deriving DecidableEq, Repr

/-- The component-local state of ActivityFeedList: `selectedThread`
(panel content), `selctedThreadId` (inline-expanded thread id, spelled as
in the source) and `isPanelOpen`. -/
structure FeedState where
  selectedThread : Option EntityThread
  selctedThreadId : String
  isPanelOpen : Bool
deriving DecidableEq, Repr

/-- The `useState` initial values of ActivityFeedList: no selected
thread, empty selected id, panel closed. -/
def initialFeedState : FeedState :=
  { selectedThread := none, selctedThreadId := "", isPanelOpen := false }

/-- `onThreadIdSelect(id)`: store the inline-expanded thread id. -/
def onThreadIdSelect (id : String) (s : FeedState) : FeedState :=
  { s with selctedThreadId := id }

/-- `onThreadIdDeselect()`: clear the inline-expanded thread id. -/
def onThreadIdDeselect (s : FeedState) : FeedState :=
  { s with selctedThreadId := "" }

/-- `onThreadSelect(id)`: `feedList.find((f) => f.id === id)`; when found,
store the thread as `selectedThread`, otherwise leave the state alone. -/
def onThreadSelect (feedList : List EntityThread) (id : String)
    (s : FeedState) : FeedState :=
  match feedList.find? (fun f => f.id == id) with
  | some thread => { s with selectedThread := some thread }
  | none => s

/-- `onViewMore()`: open the side panel. -/
def onViewMore (s : FeedState) : FeedState := { s with isPanelOpen := true }

/-- `onCancel()`: clear `selectedThread` and close the panel. -/
def onCancel (s : FeedState) : FeedState :=
  { s with selectedThread := none, isPanelOpen := false }

/-- `postFeed(value)`: `postFeedHandler?.(value, selctedThreadId)`. The
embedding returns the argument pair handed to the owner's handler, or
`none` when no handler was supplied (optional chaining makes the call a
no-op then); the component state itself is untouched. -/
def postFeed (hasHandler : Bool) (value : String) (s : FeedState) :
    Option (String × String) :=
  if hasHandler then some (value, s.selctedThreadId) else none

/-- The document-level `keydown` listener of ActivityFeedList:
`if (e.key === 'Escape') onCancel()`. -/
def escapeKeyHandler (key : String) (s : FeedState) : FeedState :=
  if key = "Escape" then onCancel s else s

/-- The `useEffect` with dependency `[feedList]`: on every change of the
`feedList` prop, re-run `onThreadSelect(selctedThreadId)` against the new
list. -/
def onFeedListChange (feedList : List EntityThread) (s : FeedState) :
    FeedState :=
  onThreadSelect feedList s.selctedThreadId s

/-- The reply region FeedListBody renders under a thread's card when that
thread is inline-expanded (`selctedThreadId === feed.id`), with
`replies = feed.postsCount`: a `View all (N) replies` affordance when
`replies > 3`; otherwise a `N replies`/`1 reply` count line when
`replies > 0`; then, unconditionally, the `LatestReplyFeedList` over
`feed.posts` and the `ActivityFeedEditor` composer. -/
structure ReplyRegion where
  viewAllAffordance : Option Nat
  replyCountText : Option Nat
  inlineReplies : List Post
  composer : Bool
deriving DecidableEq, Repr

/-- The reply region of one inline-expanded thread, read off the
`selctedThreadId === feed.id` branch of FeedListBody. -/
def renderReplyRegion (feed : EntityThread) : ReplyRegion :=
  { viewAllAffordance :=
      if feed.postsCount > 3 then some feed.postsCount else none
    replyCountText :=
      if feed.postsCount > 3 then none
      else if feed.postsCount > 0 then some feed.postsCount else none
    inlineReplies := feed.posts
    composer := true }

/-- What FeedListBody renders below a thread's card: the reply region
when the thread is the inline-expanded one, nothing otherwise. -/
def renderThreadExpansion (selctedThreadId : String) (feed : EntityThread) :
    Option ReplyRegion :=
  if selctedThreadId = feed.id then some (renderReplyRegion feed) else none

/-- A thread annotated with the `relativeDay` label attached by the
external `getFeedListWithRelativeDays` utility. -/
structure AnnotatedThread where
  thread : EntityThread
  relativeDay : String
deriving DecidableEq, Repr

/-- The top-level output of ActivityFeedList: either the `Onboarding`
placeholder, or the day-grouped sections (one `FeedListSeparator` per
relative day plus the threads of that day) together with a flag telling
whether the `ActivityFeedPanel` is rendered
(`withSidePanel && selectedThread && isPanelOpen`). -/
inductive FeedListRender where
  | onboarding : FeedListRender
  | groups : List (String × List EntityThread) → Bool → FeedListRender
deriving DecidableEq, Repr

/-- The return value of ActivityFeedList:
`feedList.length > 0 ? (sections + optional panel) : <Onboarding />`;
each section keeps the external ordering of `relativeDays` and, inside a
day, of `updatedFeedList` (FeedListBody filters by
`f.relativeDay === relativeDay`). -/
def renderFeedList (feedList : List EntityThread)
    (updatedFeedList : List AnnotatedThread) (relativeDays : List String)
    (withSidePanel : Bool) (s : FeedState) : FeedListRender :=
  if feedList.length > 0 then
    .groups
      (relativeDays.map fun d =>
        (d, (updatedFeedList.filter fun f => f.relativeDay == d).map
          (fun f => f.thread)))
      (withSidePanel && s.selectedThread.isSome && s.isPanelOpen)
  else .onboarding

/-- `List.find?` returns the element when it is in the list, satisfies the
predicate, and is the only element of the list satisfying it. -/
theorem find_eq_some_of_unique {α : Type} (p : α → Bool) (l : List α)
    (t : α) (hmem : t ∈ l) (hp : p t = true)
    (huniq : ∀ x ∈ l, p x = true → x = t) : l.find? p = some t := by
  induction l with
  | nil => cases hmem
  | cons a l ih =>
    by_cases ha : p a = true
    · rw [List.find?_cons_of_pos _ ha, huniq a (List.mem_cons_self a l) ha]
    · rw [List.find?_cons_of_neg _ ha]
      rcases List.mem_cons.mp hmem with h | h
      · exact absurd (h ▸ hp) ha
      · exact ih h fun x hx hpx => huniq x (List.mem_cons_of_mem _ hx) hpx

/-- A sample reply post. -/
def postSample : Post := { «from» := "alice", postTs := 1, message := "re" }

/-- A sample thread with no replies. -/
def threadSample : EntityThread :=
  { id := "t1", about := "e", message := "m", createdBy := "c"
    threadTs := 0, postsCount := 0, posts := [] }

/-- A sample thread with five replies, one of them delivered in `posts`. -/
def threadFive : EntityThread :=
  { id := "t5", about := "e", message := "m", createdBy := "c"
    threadTs := 0, postsCount := 5, posts := [postSample] }

/-- A sample thread with two replies, both delivered in `posts`. -/
def threadTwo : EntityThread :=
  { id := "t2", about := "e", message := "m", createdBy := "c"
    threadTs := 0, postsCount := 2
    posts := [postSample, { «from» := "bob", postTs := 2, message := "r2" }] }

/-- Counterexample to claim C2: an inline-expanded thread with more than
3 replies renders the `View all (5) replies` affordance, yet the inline
reply list (`LatestReplyFeedList` over `feed.posts`) is still rendered —
it is unconditional in the expanded branch of FeedListBody. -/
theorem viewAll_inline_counterexample :
    threadFive.postsCount > 3 ∧
    renderThreadExpansion "t5" threadFive =
      some (renderReplyRegion threadFive) ∧
    (renderReplyRegion threadFive).viewAllAffordance =
      some threadFive.postsCount ∧
    (renderReplyRegion threadFive).inlineReplies ≠ [] := by decide

/-- Amended claim C2: with more than 3 replies the expanded thread shows
the `View all (N) replies` affordance and no inline count text; with 1–3
replies the count text and no affordance; with 0 replies neither; in
every expanded state the posts list (`feed.posts`) and the composer are
rendered, and a thread that is not the inline-expanded one renders no
reply region at all. -/
theorem replyRegion_spec (feed : EntityThread) (sid : String) :
    (feed.postsCount > 3 →
      (renderReplyRegion feed).viewAllAffordance = some feed.postsCount ∧
      (renderReplyRegion feed).replyCountText = none) ∧
    (0 < feed.postsCount → feed.postsCount ≤ 3 →
      (renderReplyRegion feed).replyCountText = some feed.postsCount ∧
      (renderReplyRegion feed).viewAllAffordance = none) ∧
    (feed.postsCount = 0 →
      (renderReplyRegion feed).replyCountText = none ∧
      (renderReplyRegion feed).viewAllAffordance = none) ∧
    (renderReplyRegion feed).inlineReplies = feed.posts ∧
    (renderReplyRegion feed).composer = true ∧
    (sid = feed.id →
      renderThreadExpansion sid feed = some (renderReplyRegion feed)) ∧
    (sid ≠ feed.id → renderThreadExpansion sid feed = none) := by
  refine ⟨?_, ?_, ?_, rfl, rfl, ?_, ?_⟩
  · intro h
    simp [renderReplyRegion, h]
  · intro h1 h2
    have h3 : ¬feed.postsCount > 3 := by omega
    simp [renderReplyRegion, h3, h1]
  · intro h
    simp [renderReplyRegion, h]
  · intro h
    simp [renderThreadExpansion, h]
  · intro h
    simp [renderThreadExpansion, h]

/-- Witness for the amended C2 at concrete threads with 5 and with 2
replies. -/
theorem replyRegion_spec_witness :
    ((renderReplyRegion threadFive).viewAllAffordance =
        some threadFive.postsCount ∧
      (renderReplyRegion threadFive).replyCountText = none) ∧
    ((renderReplyRegion threadTwo).replyCountText =
        some threadTwo.postsCount ∧
      (renderReplyRegion threadTwo).viewAllAffordance = none) :=
  ⟨(replyRegion_spec threadFive "t5").1 (by decide),
    (replyRegion_spec threadTwo "t2").2.1 (by decide) (by decide)⟩

/-- Claim C5: when the `feedList` prop changes, the retained
`selctedThreadId` is looked up in the new list; when the new list still
contains the thread with that id, `selectedThread` becomes that thread
from the new list, while the id and the panel flag are untouched. -/
theorem feedListChange_reselects (newList : List EntityThread)
    (s : FeedState) (t : EntityThread) (hmem : t ∈ newList)
    (hid : t.id = s.selctedThreadId) :
    (∃ u ∈ newList, u.id = s.selctedThreadId ∧
      (onFeedListChange newList s).selectedThread = some u) ∧
    ((∀ x ∈ newList, x.id = s.selctedThreadId → x = t) →
      (onFeedListChange newList s).selectedThread = some t) ∧
    (onFeedListChange newList s).selctedThreadId = s.selctedThreadId ∧
    (onFeedListChange newList s).isPanelOpen = s.isPanelOpen := by
  refine ⟨?_, ?_, ?_, ?_⟩
  · cases hfind :
        newList.find? (fun f => f.id == s.selctedThreadId) with
    | none =>
      exfalso
      have := List.find?_eq_none.mp hfind t hmem
      simp [hid] at this
    | some u =>
      refine ⟨u, List.mem_of_find?_eq_some hfind,
        by simpa using List.find?_some hfind, ?_⟩
      unfold onFeedListChange onThreadSelect
      rw [hfind]
  · intro huniq
    have hfind :
        newList.find? (fun f => f.id == s.selctedThreadId) = some t := by
      refine find_eq_some_of_unique _ _ _ hmem (by simpa using hid) ?_
      intro x hx hpx
      exact huniq x hx (by simpa using hpx)
    unfold onFeedListChange onThreadSelect
    rw [hfind]
  · unfold onFeedListChange onThreadSelect
    cases newList.find? (fun f => f.id == s.selctedThreadId) <;> rfl
  · unfold onFeedListChange onThreadSelect
    cases newList.find? (fun f => f.id == s.selctedThreadId) <;> rfl

/-- Witness for C5: a refreshed one-element list containing the retained
id re-resolves the panel thread and keeps the panel open. -/
theorem feedListChange_reselects_witness :
    (onFeedListChange [threadSample] ⟨none, "t1", true⟩).selectedThread =
      some threadSample ∧
    (onFeedListChange [threadSample] ⟨none, "t1", true⟩).isPanelOpen =
      true := by
  have h := feedListChange_reselects [threadSample] ⟨none, "t1", true⟩
    threadSample (by decide) rfl
  exact ⟨h.2.1 (by decide), h.2.2.2⟩

/-- Counterexample to claim C6: the state with the panel closed but a
thread still selected is reachable (inline-select an id, then let the
feed list refresh), and pressing `Escape` there changes the state — it
clears `selectedThread` — so Escape with the panel already closed is not
always a no-op. -/
theorem escape_closed_counterexample :
    onFeedListChange [threadSample]
        (onThreadIdSelect "t1" initialFeedState) =
      ⟨some threadSample, "t1", false⟩ ∧
    (⟨some threadSample, "t1", false⟩ : FeedState).isPanelOpen = false ∧
    escapeKeyHandler "Escape" ⟨some threadSample, "t1", false⟩ ≠
      ⟨some threadSample, "t1", false⟩ := by decide

/-- Amended claim C6: `Escape` runs `onCancel`, which clears
`selectedThread` and closes the panel in every state; the handler is
idempotent, and it is a no-op exactly on states where `selectedThread` is
already empty and the panel already closed. -/
theorem escape_spec (s : FeedState) :
    escapeKeyHandler "Escape" s = onCancel s ∧
    (escapeKeyHandler "Escape" s).selectedThread = none ∧
    (escapeKeyHandler "Escape" s).isPanelOpen = false ∧
    escapeKeyHandler "Escape" (escapeKeyHandler "Escape" s) =
      escapeKeyHandler "Escape" s ∧
    (s.selectedThread = none → s.isPanelOpen = false →
      escapeKeyHandler "Escape" s = s) := by
  have he : ∀ u, escapeKeyHandler "Escape" u = onCancel u := by
    intro u
    simp [escapeKeyHandler]
  refine ⟨he s, by rw [he s]; rfl, by rw [he s]; rfl,
    by rw [he s, he (onCancel s)]; rfl, ?_⟩
  intro h1 h2
  rw [he s]
  obtain ⟨st, sid, po⟩ := s
  simp only at h1 h2
  rw [h1, h2]
  rfl

/-- Witness for C6: on the initial state, Escape clears the selection and
is a no-op. -/
theorem escape_spec_witness :
    (escapeKeyHandler "Escape" initialFeedState).selectedThread = none ∧
    escapeKeyHandler "Escape" initialFeedState = initialFeedState :=
  ⟨(escape_spec initialFeedState).2.1,
    (escape_spec initialFeedState).2.2.2.2 rfl rfl⟩

/-- Claim C7: `onThreadSelect(id)` stores the thread found by id as
`selectedThread` (leaving the rest of the state alone), and leaves the
whole state unchanged when no thread in the list has that id. -/
theorem onThreadSelect_spec (feedList : List EntityThread) (id : String)
    (s : FeedState) :
    ((∃ t ∈ feedList, t.id = id) →
      ∃ t ∈ feedList, t.id = id ∧
        onThreadSelect feedList id s =
          { s with selectedThread := some t }) ∧
    ((∀ t ∈ feedList, t.id ≠ id) → onThreadSelect feedList id s = s) := by
  constructor
  · rintro ⟨t, hmem, hid⟩
    cases hfind : feedList.find? (fun f => f.id == id) with
    | none =>
      exfalso
      have := List.find?_eq_none.mp hfind t hmem
      simp [hid] at this
    | some u =>
      refine ⟨u, List.mem_of_find?_eq_some hfind,
        by simpa using List.find?_some hfind, ?_⟩
      unfold onThreadSelect
      rw [hfind]
  · intro hall
    have hfind : feedList.find? (fun f => f.id == id) = none := by
      refine List.find?_eq_none.mpr ?_
      intro t hmem
      simpa using hall t hmem
    unfold onThreadSelect
    rw [hfind]

/-- Witness for C7: a present id is stored, an absent id leaves the
initial state unchanged. -/
theorem onThreadSelect_spec_witness :
    (∃ t ∈ [threadSample], t.id = "t1" ∧
      onThreadSelect [threadSample] "t1" initialFeedState =
        { initialFeedState with selectedThread := some t }) ∧
    onThreadSelect [threadSample] "zz" initialFeedState =
      initialFeedState :=
  ⟨(onThreadSelect_spec [threadSample] "t1" initialFeedState).1
      ⟨threadSample, by decide, rfl⟩,
    (onThreadSelect_spec [threadSample] "zz" initialFeedState).2
      (by decide)⟩

/-- Claim C9: with an empty `feedList` the component renders exactly the
`Onboarding` placeholder — the `groups` alternative, which is the only
place day separators, thread sections and the side panel occur, is not
produced. -/
theorem emptyFeed_onboarding (updatedFeedList : List AnnotatedThread)
    (relativeDays : List String) (withSidePanel : Bool) (s : FeedState) :
    renderFeedList [] updatedFeedList relativeDays withSidePanel s =
      FeedListRender.onboarding := rfl

/-- Claim C10: `postFeed` hands the saved message to the owner's
`postFeedHandler` together with the retained `selctedThreadId`; with no
selection (the initial empty id, or right after a deselect) the empty
string is passed; with no handler supplied the call is a no-op. -/
theorem postFeed_spec (value : String) (s : FeedState) :
    postFeed true value s = some (value, s.selctedThreadId) ∧
    postFeed false value s = none ∧
    (s.selctedThreadId = "" → postFeed true value s = some (value, "")) ∧
    postFeed true value (onThreadIdDeselect s) = some (value, "") := by
  refine ⟨rfl, rfl, ?_, rfl⟩
  intro h
  simp [postFeed, h]

/-- Witness for C10 at a concrete message and the initial state. -/
theorem postFeed_spec_witness :
    postFeed true "hello" initialFeedState = some ("hello", "") :=
  (postFeed_spec "hello" initialFeedState).2.2.1 rfl

end OpenMetadataUI
